import Mathlib

/-!
Verification of the Notion-backed static blog generator.

The development shallowly embeds the data-shape mapping of the repository:
the conversion in `src/pages/index.tsx` (`getStaticProps`) from raw Notion
page/block responses to `Post` records with typed `Content` sequences, and
the detail route (`getStaticProps` / `getStaticPaths` of the slug page) that
redirects to `/404` on failure and enumerates one static path per post with
a truthy slug.
-/

/-- One rich-text run of the remote API; the code only ever reads its
`plain_text` field (`rich_text[0]?.plain_text`). -/
structure RichText where
  plain_text : String
deriving DecidableEq

/-- A raw property value of a page, as discriminated by the source's
`page.properties[...].type` checks: a `title` property carrying rich-text
runs, a `rich_text` property carrying rich-text runs, or a property of any
other type tag (whose payload the source never reads). -/
inductive PropValue where
  | title (runs : List RichText)
  | richText (runs : List RichText)
  | otherProp (tag : String)
deriving DecidableEq

/-- The two properties of a full page object that the source reads:
`page.properties['Name']` and `page.properties['Slug']`. -/
structure PageProperties where
  name : PropValue
  slug : PropValue
deriving DecidableEq

/-- A raw database entry. `partialPage` is a `PartialPageObjectResponse`
(no `properties` key, detected by the source's `'properties' in page`
check); `fullPage` is a `PageObjectResponse` with its properties and its
`created_time` / `last_edited_time` strings. -/
inductive RawPage where
  | partialPage (id : String)
  | fullPage (id : String) (properties : PageProperties)
      (created_time : String) (last_edited_time : String)
deriving DecidableEq

/-- The `id` field, present on both partial and full page objects. -/
def RawPage.id : RawPage → String
  | .partialPage i => i
  | .fullPage i _ _ _ => i

/-- A raw child block. The five recognized constructors mirror the cases of
the source's `switch (block.type)`, each carrying the `rich_text` array the
source reads (and, for `code`, the `language` field). `other tag` is a block
whose `type` discriminant is any tag outside the five recognized ones
(e.g. `"bulleted_list_item"`); `untyped` is a block with no `type` key at
all (the source's `!('type' in block)` check). -/
inductive RawBlock where
  | paragraph (rich_text : List RichText)
  | heading_2 (rich_text : List RichText)
  | heading_3 (rich_text : List RichText)
  | quote (rich_text : List RichText)
  | code (rich_text : List RichText) (language : Option String)
  | other (tag : String)
  | untyped
deriving DecidableEq

/-- The `Content` union of `src/pages/index.tsx`: four text-only variants
and a `code` variant that additionally carries a language. -/
inductive Content where
  | paragraph (text : Option String)
  | quote (text : Option String)
  | heading_2 (text : Option String)
  | heading_3 (text : Option String)
  | code (text : Option String) (language : Option String)
deriving DecidableEq

/-- The `Post` record of `src/pages/index.tsx`. -/
structure Post where
  id : String
  title : Option String
  slug : Option String
  createdTs : Option String
  lastEditedTs : Option String
  contents : List Content
deriving DecidableEq

/-- The idiom `rich_text[0]?.plain_text ?? null`: the plain text of the
first run, or `null` when the array is empty. -/
def firstPlainText (runs : List RichText) : Option String :=
  runs.head?.map RichText.plain_text

/-- One iteration of the source's `blocks.results.forEach`: blocks lacking a
`type` key return early, the `switch` maps each of the five recognized tags
to the matching `Content` push, and unrecognized tags fall through the
`switch` without a push. `some c` means `c` was pushed; `none` means the
iteration pushed nothing. -/
def mapBlock : RawBlock → Option Content
  | .paragraph rt => some (.paragraph (firstPlainText rt))
  | .heading_2 rt => some (.heading_2 (firstPlainText rt))
  | .heading_3 rt => some (.heading_3 (firstPlainText rt))
  | .quote rt => some (.quote (firstPlainText rt))
  | .code rt lang => some (.code (firstPlainText rt) lang)
  | .other _ => none
  | .untyped => none

/-- The whole `blocks.results.forEach` loop: the `contents` array built by
pushing, in order, the mapped value of every recognized block. -/
def mapBlocks (blocks : List RawBlock) : List Content :=
  blocks.filterMap mapBlock

/-- The body of one iteration of `database.results.forEach` in
`src/pages/index.tsx`: a page without `properties` yields a `Post` with only
`id` set; a full page reads `title` from the `Name` property when its type
is `title` (first run's plain text, else null), `slug` from the `Slug`
property when its type is `rich_text`, copies the two timestamps, and maps
the fetched child blocks. -/
def mapEntry : RawPage → List RawBlock → Post
  | .partialPage id, _ =>
    { id := id, title := none, slug := none,
      createdTs := none, lastEditedTs := none, contents := [] }
  | .fullPage id props created lastEdited, blocks =>
    let title : Option String :=
      match props.name with
      | .title runs => firstPlainText runs
      | _ => none
    let slug : Option String :=
      match props.slug with
      | .richText runs => firstPlainText runs
      | _ => none
    { id := id, title := title, slug := slug,
      createdTs := some created, lastEditedTs := some lastEdited,
      contents := mapBlocks blocks }

/-- The post-building phase of `getStaticProps` in `src/pages/index.tsx`:
`blockResponses[index]` is the children fetch for `page.id`, and each
iteration of `database.results.forEach` pushes exactly one `Post`.
`blockFetch` stands for `notion.blocks.children.list` keyed by page id. -/
def buildPosts : List RawPage → (String → List RawBlock) → List Post
  | [], _ => []
  | page :: rest, blockFetch =>
    mapEntry page (blockFetch page.id) :: buildPosts rest blockFetch

/-- The `{ params: { slug } }` record pushed by the detail route's
`getStaticPaths`. -/
structure PathParams where
  slug : String
deriving DecidableEq

/-- A `getStaticProps` result of the detail route: either the not-found
shape `{ props: {}, redirect: { destination: '/404' } }` or
`{ props: { post } }`. -/
inductive DetailResult where
  | redirect (destination : String)
  | props (post : Post)
deriving DecidableEq

/-- The `notFoundProps` constant of the detail route: a redirect whose
destination is the fixed path `/404`. -/
def notFoundProps : DetailResult := DetailResult.redirect "/404"

namespace Detail

/-- `getStaticProps` of the detail route (`src/unnamed/part_000`): missing
`params` yields `notFoundProps`; otherwise `getPosts slug` is fetched and
`posts.shift()` takes its first element; an undefined first element yields
`notFoundProps`; otherwise the post's `contents` is replaced by
`getPostContents post` and the post is returned in `props`. `getPosts` and
`getPostContents` stand for the awaited remote fetches. -/
def getStaticProps (params : Option PathParams)
    (getPosts : String → List Post)
    (getPostContents : Post → List Content) : DetailResult :=
  match params with
  | none => notFoundProps
  | some p =>
    match getPosts p.slug with
    | [] => notFoundProps
    | post :: _ => DetailResult.props { post with contents := getPostContents post }

/-- The path-building loop of `getStaticPaths` (`src/unnamed/part_000`):
for each post, `const slug = post.slug; if (slug) paths.push({params:{slug}})`.
The JavaScript truthiness test `if (slug)` on a `string | null` value is
false for `null` and for the empty string. -/
def getStaticPaths : List Post → List PathParams
  | [] => []
  | post :: rest =>
    match post.slug with
    | some slug => if slug = "" then getStaticPaths rest
                   else ⟨slug⟩ :: getStaticPaths rest
    | none => getStaticPaths rest

end Detail

/-- The raw `Slug` property's first rich-text run of a page: `none` for a
partial page or when the `Slug` property's type is not `rich_text` or its
run array is empty. -/
def rawSlugFirstRun : RawPage → Option String
  | .partialPage _ => none
  | .fullPage _ props _ _ =>
    match props.slug with
    | .richText runs => firstPlainText runs
    | _ => none

/-- Modelled from the spec: the Fetcher `getPosts` taking an optional slug
is not under `src/` (only its caller in `src/unnamed/part_000` and the
slug-less inline query of `src/pages/index.tsx` are). Per the spec, it
queries the published entries, optionally narrowed by a slug-equality
filter on the `Slug` field (first rich-text run), and maps each returned
entry with its fetched blocks. `remote` is the ordered remote query result
paired with each entry's first page of child blocks. -/
def listPosts (slug : Option String)
    (remote : List (RawPage × List RawBlock)) : List Post :=
  let selected : List (RawPage × List RawBlock) :=
    match slug with
    | none => remote
    | some s => remote.filter (fun e => rawSlugFirstRun e.1 = some s)
  selected.map (fun e => mapEntry e.1 e.2)

/-- JavaScript truthiness of the `string | null` slug value tested by
`if (slug)`: `null` and the empty string are falsy, every other string is
truthy. -/
def slugTruthy : Option String → Bool
  | none => false
  | some s => !(s == "")

theorem mapBlocks_append (xs ys : List RawBlock) :
    mapBlocks (xs ++ ys) = mapBlocks xs ++ mapBlocks ys := by
  simp [mapBlocks]

theorem mapEntry_slug_eq (pg : RawPage) (bs : List RawBlock) :
    (mapEntry pg bs).slug = rawSlugFirstRun pg := by
  cases pg with
  | partialPage i => rfl
  | fullPage i props c l =>
    cases props with
    | mk n sl => cases sl <;> rfl

theorem getStaticPaths_append (xs ys : List Post) :
    Detail.getStaticPaths (xs ++ ys) =
      Detail.getStaticPaths xs ++ Detail.getStaticPaths ys := by
  induction xs with
  | nil => rfl
  | cons p rest ih =>
    cases h : p.slug with
    | none => simp [Detail.getStaticPaths, h, ih]
    | some s =>
      by_cases hs : s = "" <;> simp [Detail.getStaticPaths, h, hs, ih]

theorem getStaticPaths_length (posts : List Post) :
    (Detail.getStaticPaths posts).length =
      (posts.filter (fun p => slugTruthy p.slug)).length := by
  induction posts with
  | nil => rfl
  | cons p rest ih =>
    cases h : p.slug with
    | none => simp [Detail.getStaticPaths, slugTruthy, h, ih]
    | some s =>
      by_cases hs : s = "" <;>
        simp [Detail.getStaticPaths, slugTruthy, h, hs, ih]

/-- C1: for every raw entry lacking the `properties` key (partial page
object), the mapper produces a `Post` whose `title`, `slug`, `createdTs`
and `lastEditedTs` are all null and whose `contents` is the empty list,
while the `Post`'s `id` equals the raw entry's `id`. -/
theorem mapEntry_partialPage_spec (i : String) (blocks : List RawBlock) :
    mapEntry (RawPage.partialPage i) blocks =
      { id := (RawPage.partialPage i).id, title := none, slug := none,
        createdTs := none, lastEditedTs := none, contents := [] } := rfl

/-- C4: a raw block whose type tag is outside the five recognized tags
(for example `"bulleted_list_item"`), and a raw block lacking a type
discriminant, produce no `Content` element: the mapper skips them without
error and the surrounding contents sequence is as if they were absent. -/
theorem mapBlock_unrecognized_spec (tag : String) (xs ys : List RawBlock) :
    mapBlock (RawBlock.other tag) = none ∧
    mapBlock RawBlock.untyped = none ∧
    mapBlocks (xs ++ RawBlock.other tag :: ys) = mapBlocks (xs ++ ys) ∧
    mapBlocks (xs ++ RawBlock.untyped :: ys) = mapBlocks (xs ++ ys) := by
  refine ⟨rfl, rfl, ?_, ?_⟩ <;>
    simp [mapBlocks, mapBlock]

/-- C5: the mapped contents sequence preserves the order of the raw block
list: whenever recognized block `a` precedes recognized block `b`, the
`Content` mapped from `a` precedes the one mapped from `b`, with
unrecognized blocks removed and no reordering. -/
theorem mapBlocks_order_spec (xs ys zs : List RawBlock) (a b : RawBlock)
    (ca cb : Content) (ha : mapBlock a = some ca) (hb : mapBlock b = some cb) :
    mapBlocks (xs ++ a :: ys ++ b :: zs) =
      mapBlocks xs ++ ca :: (mapBlocks ys ++ cb :: mapBlocks zs) := by
  simp [mapBlocks, ha, hb]

/-- Witness for C5 at a concrete block list: a paragraph followed by a
quote, with an unrecognized and an untyped block interleaved, maps in
order. -/
theorem mapBlocks_order_spec_witness :
    mapBlocks [RawBlock.other "bulleted_list_item", RawBlock.paragraph [⟨"A"⟩],
        RawBlock.untyped, RawBlock.quote [⟨"B"⟩]] =
      [Content.paragraph (some "A"), Content.quote (some "B")] := by
  have h := mapBlocks_order_spec [RawBlock.other "bulleted_list_item"]
    [RawBlock.untyped] [] (RawBlock.paragraph [⟨"A"⟩]) (RawBlock.quote [⟨"B"⟩])
    (Content.paragraph (some "A")) (Content.quote (some "B")) rfl rfl
  exact h.trans (by decide)

/-- C7: a raw block of type `code` maps to the `code` variant whose text is
the first rich-text run's plain text (null when the run array is empty) and
whose language is the block's `language` field verbatim; in particular
language `"python"` with text `"x=1"` maps to
`{type := code, text := "x=1", language := "python"}`. -/
theorem mapBlock_code_spec (rich_text : List RichText) (language : Option String) :
    mapBlock (RawBlock.code rich_text language) =
      some (Content.code (firstPlainText rich_text) language) ∧
    mapBlock (RawBlock.code [] language) = some (Content.code none language) ∧
    (∀ r rest, firstPlainText (r :: rest) = some r.plain_text) ∧
    mapBlock (RawBlock.code [⟨"x=1"⟩] (some "python")) =
      some (Content.code (some "x=1") (some "python")) :=
  ⟨rfl, rfl, fun _ _ => rfl, rfl⟩

/-- C9: a raw block of a recognized type whose rich-text array is empty is
still mapped to a `Content` element with `text = none` — it stays in the
contents sequence at its position rather than being dropped. -/
theorem mapBlock_empty_runs_spec (language : Option String) (xs ys : List RawBlock) :
    mapBlock (RawBlock.paragraph []) = some (Content.paragraph none) ∧
    mapBlock (RawBlock.quote []) = some (Content.quote none) ∧
    mapBlock (RawBlock.heading_2 []) = some (Content.heading_2 none) ∧
    mapBlock (RawBlock.heading_3 []) = some (Content.heading_3 none) ∧
    mapBlock (RawBlock.code [] language) = some (Content.code none language) ∧
    mapBlocks (xs ++ RawBlock.paragraph [] :: ys) =
      mapBlocks xs ++ Content.paragraph none :: mapBlocks ys ∧
    mapBlocks (xs ++ RawBlock.quote [] :: ys) =
      mapBlocks xs ++ Content.quote none :: mapBlocks ys ∧
    mapBlocks (xs ++ RawBlock.heading_2 [] :: ys) =
      mapBlocks xs ++ Content.heading_2 none :: mapBlocks ys ∧
    mapBlocks (xs ++ RawBlock.heading_3 [] :: ys) =
      mapBlocks xs ++ Content.heading_3 none :: mapBlocks ys ∧
    mapBlocks (xs ++ RawBlock.code [] language :: ys) =
      mapBlocks xs ++ Content.code none language :: mapBlocks ys := by
  refine ⟨rfl, rfl, rfl, rfl, rfl, ?_, ?_, ?_, ?_, ?_⟩ <;>
    simp [mapBlocks, mapBlock, firstPlainText]

/-- A mapped post whose slug is the empty string: non-null, but falsy under
the `if (slug)` test of the path-building loop. Such a post arises from a
full page whose `Slug` rich-text first run has empty plain text. -/
def emptySlugPost : Post :=
  { id := "p0", title := none, slug := some "", createdTs := none,
    lastEditedTs := none, contents := [] }

/-- C2 counterexample: for the single mapped post whose slug is the
non-null empty string `""`, static-path enumeration produces no path, so
the count of generated paths differs from the count of posts with non-null
slug. -/
theorem getStaticPaths_count_cex :
    ¬ ((Detail.getStaticPaths [emptySlugPost]).length =
        ([emptySlugPost].filter (fun p => p.slug.isSome)).length) := by
  decide

/-- C2 (amended): static-path enumeration produces exactly one path per
post whose slug is non-null and non-empty (the path carrying that slug);
posts with a null or empty-string slug produce no path; the count of
generated paths equals the count of posts whose slug is truthy (non-null
and non-empty). -/
theorem getStaticPaths_truthy_spec (posts : List Post) :
    (Detail.getStaticPaths posts).length =
      (posts.filter (fun p => slugTruthy p.slug)).length ∧
    (∀ pre p post, slugTruthy p.slug = false →
      Detail.getStaticPaths (pre ++ p :: post) =
        Detail.getStaticPaths pre ++ Detail.getStaticPaths post) ∧
    (∀ pre p post s, p.slug = some s → s ≠ "" →
      Detail.getStaticPaths (pre ++ p :: post) =
        Detail.getStaticPaths pre ++ ⟨s⟩ :: Detail.getStaticPaths post) := by
  refine ⟨getStaticPaths_length posts, ?_, ?_⟩
  · intro pre p post h
    rw [getStaticPaths_append]
    cases hs : p.slug with
    | none => simp [Detail.getStaticPaths, hs]
    | some s =>
      rw [hs] at h
      simp only [slugTruthy, Bool.not_eq_false'] at h
      simp [Detail.getStaticPaths, hs, beq_iff_eq.1 h]
  · intro pre p post s hs hne
    rw [getStaticPaths_append]
    simp [Detail.getStaticPaths, hs, hne]

/-- Witness for the amended C2 at a concrete list: a null slug, an empty
slug and the slug `"s"` produce exactly the one path for `"s"`. -/
theorem getStaticPaths_truthy_spec_witness :
    (Detail.getStaticPaths [emptySlugPost,
        { emptySlugPost with slug := none },
        { emptySlugPost with slug := some "s" }]).length =
      ([emptySlugPost, { emptySlugPost with slug := none },
        { emptySlugPost with slug := some "s" }].filter
          (fun p => slugTruthy p.slug)).length ∧
    Detail.getStaticPaths ([] ++ { emptySlugPost with slug := some "s" } :: []) =
      Detail.getStaticPaths [] ++ ⟨"s"⟩ :: Detail.getStaticPaths [] :=
  ⟨(getStaticPaths_truthy_spec [emptySlugPost,
      { emptySlugPost with slug := none },
      { emptySlugPost with slug := some "s" }]).1,
    (getStaticPaths_truthy_spec []).2.2 [] { emptySlugPost with slug := some "s" }
      [] "s" rfl (by decide)⟩

/-- C3: in the detail route's `getStaticProps`, absent route parameters, or
an empty slug-filtered fetch result, yield a redirect to the fixed `/404`
path; otherwise the result carries the matched (first) post, with no
redirect. -/
theorem detailStaticProps_spec (getPosts : String → List Post)
    (getPostContents : Post → List Content) :
    Detail.getStaticProps none getPosts getPostContents =
      DetailResult.redirect "/404" ∧
    (∀ s : String, getPosts s = [] →
      Detail.getStaticProps (some ⟨s⟩) getPosts getPostContents =
        DetailResult.redirect "/404") ∧
    (∀ (s : String) (post : Post) (rest : List Post), getPosts s = post :: rest →
      Detail.getStaticProps (some ⟨s⟩) getPosts getPostContents =
        DetailResult.props { post with contents := getPostContents post }) := by
  refine ⟨rfl, fun s h => ?_, fun s post rest h => ?_⟩ <;>
    simp [Detail.getStaticProps, h, notFoundProps]

/-- A sample post for concrete evaluations. -/
def samplePost : Post :=
  { id := "p1", title := some "T", slug := some "my-slug",
    createdTs := some "c", lastEditedTs := some "l", contents := [] }

/-- Witness for C3 at concrete fetch functions: missing params redirect,
empty fetch result redirects, and a non-empty fetch result carries its
first post with the separately fetched contents attached. -/
theorem detailStaticProps_spec_witness :
    Detail.getStaticProps none (fun _ => []) (fun _ => []) =
      DetailResult.redirect "/404" ∧
    Detail.getStaticProps (some ⟨"a"⟩) (fun _ => []) (fun _ => []) =
      DetailResult.redirect "/404" ∧
    Detail.getStaticProps (some ⟨"my-slug"⟩) (fun _ => [samplePost])
        (fun _ => [Content.paragraph (some "x")]) =
      DetailResult.props { samplePost with
        contents := [Content.paragraph (some "x")] } :=
  ⟨(detailStaticProps_spec (fun _ => []) (fun _ => [])).1,
    (detailStaticProps_spec (fun _ => []) (fun _ => [])).2.1 "a" rfl,
    (detailStaticProps_spec (fun _ => [samplePost])
      (fun _ => [Content.paragraph (some "x")])).2.2 "my-slug" samplePost [] rfl⟩

/-- C6: for a full raw page, the mapped title is the plain text of the
first rich-text run of the `Name` property when its type is `title` (so
runs `["Hello", "World"]` give title `"Hello"`), and is null when the
property's type is not `title` or its rich-text array is empty. -/
theorem mapEntry_title_spec (i c l tag : String) (runs : List RichText)
    (slugProp : PropValue) (blocks : List RawBlock) :
    (mapEntry (RawPage.fullPage i ⟨PropValue.title runs, slugProp⟩ c l)
        blocks).title = firstPlainText runs ∧
    (∀ r rest, firstPlainText (r :: rest) = some r.plain_text) ∧
    firstPlainText [] = none ∧
    (mapEntry (RawPage.fullPage i ⟨PropValue.richText runs, slugProp⟩ c l)
        blocks).title = none ∧
    (mapEntry (RawPage.fullPage i ⟨PropValue.otherProp tag, slugProp⟩ c l)
        blocks).title = none ∧
    (mapEntry (RawPage.fullPage i
        ⟨PropValue.title [⟨"Hello"⟩, ⟨"World"⟩], slugProp⟩ c l)
        blocks).title = some "Hello" :=
  ⟨rfl, fun _ _ => rfl, rfl, rfl, rfl, rfl⟩

/-- C8: the single-post selection takes the head of the slug-filtered,
ordered fetch result; it is undefined exactly when that result is empty,
and when present the selected post comes from a remote entry whose raw
`Slug` rich-text first run equals the requested slug (and carries that
slug). -/
theorem listPosts_head_spec (s : String)
    (remote : List (RawPage × List RawBlock)) :
    ((listPosts (some s) remote).head? = none ↔ listPosts (some s) remote = []) ∧
    (∀ p : Post, (listPosts (some s) remote).head? = some p →
      ∃ e ∈ remote, rawSlugFirstRun e.1 = some s ∧
        p = mapEntry e.1 e.2 ∧ p.slug = some s) := by
  constructor
  · exact List.head?_eq_none_iff
  · intro p hp
    have hmem : p ∈ listPosts (some s) remote := List.mem_of_mem_head? hp
    simp only [listPosts, List.mem_map, List.mem_filter] at hmem
    obtain ⟨e, ⟨hmem', hslug⟩, hmap⟩ := hmem
    refine ⟨e, hmem', of_decide_eq_true hslug, hmap.symm, ?_⟩
    rw [← hmap, mapEntry_slug_eq, of_decide_eq_true hslug]

/-- The remote query result used to witness C8: one full page whose `Slug`
rich-text first run is `"my-slug"`, with no child blocks. -/
def sampleRemote : List (RawPage × List RawBlock) :=
  [(RawPage.fullPage "a" ⟨PropValue.otherProp "N",
      PropValue.richText [⟨"my-slug"⟩]⟩ "c" "l", [])]

/-- The post selected from `sampleRemote` for the slug `"my-slug"`. -/
def sampleSelected : Post :=
  { id := "a", title := none, slug := some "my-slug",
    createdTs := some "c", lastEditedTs := some "l", contents := [] }

/-- Witness for C8 at `sampleRemote`: the head of the filtered fetch is the
post mapped from the matching entry, whose raw slug first run is
`"my-slug"`. -/
theorem listPosts_head_spec_witness :
    ∃ e ∈ sampleRemote, rawSlugFirstRun e.1 = some "my-slug" ∧
      sampleSelected = mapEntry e.1 e.2 ∧ sampleSelected.slug = some "my-slug" :=
  (listPosts_head_spec "my-slug" sampleRemote).2 sampleSelected (by decide)

/-- C10: the mapper emits exactly one `Post` per raw entry — partial
entries included — preserving the order of the query result: the post list
has the same length as the raw entry list and its `i`-th element is the
mapped `i`-th raw entry with its fetched blocks. -/
theorem buildPosts_length_spec (results : List RawPage)
    (blockFetch : String → List RawBlock) :
    (buildPosts results blockFetch).length = results.length ∧
    ∀ i : Nat, (buildPosts results blockFetch)[i]? =
      (results[i]?).map (fun page => mapEntry page (blockFetch page.id)) := by
  induction results with
  | nil => exact ⟨rfl, fun i => by cases i <;> rfl⟩
  | cons p rest ih =>
    refine ⟨by simpa [buildPosts] using ih.1, fun i => ?_⟩
    cases i with
    | zero => simp [buildPosts]
    | succ j => simpa [buildPosts] using ih.2 j
